import Mathlib

/-!
Verification of the UMAA Multi-Topic Assembly Engine (umaapy).

Shallow embedding of the reader/writer graph runtime:
* `multi_topic_support.py` — `OverlayView`, `CombinedSample`, `CombinedBuilder`
* `multi_topic_reader.py` — `ReaderNode.poll_once`
* `multi_topic_reader_decorators.py` — `GenSpecReader`, `LargeSetReader`, `LargeListReader`
* `multi_topic_writer_decorators.py` — `GenSpecWriter`, `LargeSetWriter`, `LargeListWriter`

GUIDs (16-octet `NumericGUID`) are modelled as naturals with `0` standing for the
all-zero `NIL_GUID`; `generate_guid` (uuid4) is modelled as drawing from a supply
counter, so a fresh GUID is never `NIL_GUID`.  Python `dict`s are modelled as
association lists with insertion-order update (`aset`), matching CPython's
ordered-dict semantics.
-/

namespace Umaa

/-- GUIDs as naturals; `0` models the all-zero 16-octet sentinel. -/
abbrev GUID := Nat

/-- `NIL_GUID` from `uuid_factory.py`: the all-zero GUID. -/
def NIL_GUID : GUID := 0

/-- `generate_guid` from `uuid_factory.py`, modelled as a fresh draw from a
supply counter.  The returned GUID is `supply + 1 ≠ NIL_GUID`. -/
def generate_guid (supply : Nat) : GUID × Nat := (supply + 1, supply + 1)

/-- Association-list lookup, modelling Python `dict.get` / `d[k]`. -/
def alookup {α β : Type} [DecidableEq α] (k : α) : List (α × β) → Option β
  | [] => none
  | (k', v) :: rest => if k' = k then some v else alookup k rest

/-- Association-list update, modelling Python `d[k] = v`: an existing key keeps
its position, a new key is appended (CPython insertion order). -/
def aset {α β : Type} [DecidableEq α] (k : α) (v : β) : List (α × β) → List (α × β)
  | [] => [(k, v)]
  | (k', v') :: rest => if k' = k then (k, v) :: rest else (k', v') :: aset k v rest

theorem alookup_aset_self {α β : Type} [DecidableEq α] (k : α) (v : β) (m : List (α × β)) :
    alookup k (aset k v m) = some v := by
  induction m with
  | nil => simp [aset, alookup]
  | cons hd tl ih =>
    obtain ⟨k', v'⟩ := hd
    by_cases h : k' = k
    · simp [aset, alookup, h]
    · simp [aset, alookup, h, ih]

theorem alookup_aset_ne {α β : Type} [DecidableEq α] (k k' : α) (v : β) (m : List (α × β))
    (h : k' ≠ k) : alookup k' (aset k v m) = alookup k' m := by
  induction m with
  | nil => simp [aset, alookup, Ne.symm h]
  | cons hd tl ih =>
    obtain ⟨k₀, v₀⟩ := hd
    by_cases hk : k₀ = k
    · subst hk
      simp [aset, alookup, Ne.symm h]
    · simp [aset, alookup, hk, ih]

theorem alookup_aset_isSome {α β : Type} [DecidableEq α] (k k' : α) (v : β) (m : List (α × β))
    (h : (alookup k' m).isSome) : (alookup k' (aset k v m)).isSome := by
  by_cases hk : k' = k
  · subst hk; simp [alookup_aset_self]
  · rwa [alookup_aset_ne _ _ _ _ hk]

end Umaa

namespace Umaa.Ov

/-!
## OverlayView (`multi_topic_support.py` lines 61–122)

Generated IDL objects are modelled as `PyVal.obj` — finite attribute maps —
so that `getattr` / `hasattr` reflection can be embedded directly.
-/

/-- A Python value as seen by the reflective attribute access in the engine. -/
inductive PyVal where
  | vnone : PyVal
  | nat : Nat → PyVal
  | str : String → PyVal
  | obj : List (String × PyVal) → PyVal

/-- `getattr(v, name)` returning `none` where Python raises `AttributeError`. -/
def PyVal.getattr? : PyVal → String → Option PyVal
  | .obj fields, n => alookup n fields
  | _, _ => none

/-- `hasattr(v, name)`. -/
def PyVal.hasattr (v : PyVal) (n : String) : Bool := (v.getattr? n).isSome

/-- `OverlayView.__slots__` state: base, optional overlay, collections map,
path-scoped overlays, current path (`multi_topic_support.py` lines 76–90). -/
structure OverlayView where
  base : PyVal
  overlay : Option PyVal
  collections : List (String × PyVal)
  overlaysByPath : List (List String × PyVal)
  path : List String

/-- Outcome of `OverlayView.__getattr__`: a scoped sub-view, a plain value, or
an `AttributeError`. -/
inductive OVResult where
  | view : OverlayView → OVResult
  | val : PyVal → OVResult
  | attrError : OVResult

/-- `OverlayView.__getattr__` (`multi_topic_support.py` lines 92–119):
1) nested overlay registered at `path + [name]` → scoped `OverlayView`;
2) top-level overlay has the attribute → its value;
3) base has the attribute → its value;
4) `name` is a collections key → the collection;
5) otherwise `AttributeError`. -/
def OverlayView.getattrResult (v : OverlayView) (name : String) : OVResult :=
  let subPath := v.path ++ [name]
  match alookup subPath v.overlaysByPath with
  | some overlaySub =>
      OVResult.view
        { base := (v.base.getattr? name).getD PyVal.vnone
          overlay := some overlaySub
          collections := v.collections
          overlaysByPath := v.overlaysByPath
          path := subPath }
  | none =>
    match v.overlay with
    | some o =>
      match o.getattr? name with
      | some x => OVResult.val x
      | none =>
        match v.base.getattr? name with
        | some x => OVResult.val x
        | none =>
          match alookup name v.collections with
          | some c => OVResult.val c
          | none => OVResult.attrError
    | none =>
      match v.base.getattr? name with
      | some x => OVResult.val x
      | none =>
        match alookup name v.collections with
        | some c => OVResult.val c
        | none => OVResult.attrError

/-- C3: `OverlayView.__getattr__` resolves a name `n` with the precedence
(1) nested overlay registered at `path + [n]` → an `OverlayView` scoped there
(its base is `base.n` when present, else `None`);
(2) overlay present and owning `n` → `overlay.n`;
(3) base owning `n` → `base.n`;
(4) `n` a collections key → the collection;
(5) otherwise an `AttributeError`. -/
theorem overlayView_getattr_precedence (v : OverlayView) (n : String) :
    (∀ ov, alookup (v.path ++ [n]) v.overlaysByPath = some ov →
      v.getattrResult n = OVResult.view
        { base := (v.base.getattr? n).getD PyVal.vnone
          overlay := some ov
          collections := v.collections
          overlaysByPath := v.overlaysByPath
          path := v.path ++ [n] })
    ∧ (alookup (v.path ++ [n]) v.overlaysByPath = none →
        (∀ o x, v.overlay = some o → o.getattr? n = some x →
          v.getattrResult n = OVResult.val x)
        ∧ ((∀ o, v.overlay = some o → o.getattr? n = none) →
            (∀ x, v.base.getattr? n = some x → v.getattrResult n = OVResult.val x)
            ∧ (v.base.getattr? n = none →
                (∀ c, alookup n v.collections = some c →
                  v.getattrResult n = OVResult.val c)
                ∧ (alookup n v.collections = none →
                    v.getattrResult n = OVResult.attrError)))) := by
  refine ⟨?_, ?_⟩
  · intro ov hov
    rw [OverlayView.getattrResult]
    simp only [hov]
  · intro hnone
    refine ⟨?_, ?_⟩
    · intro o x ho hx
      rw [OverlayView.getattrResult]
      simp only [hnone, ho, hx]
    · intro hoverlay
      refine ⟨?_, ?_⟩
      · intro x hx
        rw [OverlayView.getattrResult]
        simp only [hnone]
        match ho : v.overlay with
        | some o => simp only [hoverlay o ho, hx]
        | none => simp only [hx]
      · intro hbase
        refine ⟨?_, ?_⟩
        · intro c hc
          rw [OverlayView.getattrResult]
          simp only [hnone]
          match ho : v.overlay with
          | some o => simp only [hoverlay o ho, hbase, hc]
          | none => simp only [hbase, hc]
        · intro hcoll
          rw [OverlayView.getattrResult]
          simp only [hnone]
          match ho : v.overlay with
          | some o => simp only [hoverlay o ho, hbase, hcoll]
          | none => simp only [hbase, hcoll]

/-- Concrete view for the C3 witness: a nested overlay under `["obj"]`, a
top-level overlay owning `"speed"`, a base owning `"name"`, and a collection
`"waypoints"`. -/
def demoView : OverlayView :=
  { base := PyVal.obj [("name", PyVal.str "base")]
    overlay := some (PyVal.obj [("speed", PyVal.nat 3)])
    collections := [("waypoints", PyVal.obj [])]
    overlaysByPath := [(["obj"], PyVal.obj [("kind", PyVal.str "route")])]
    path := [] }

/-- Witness for C3: the five precedence cases evaluated at `demoView`. -/
theorem overlayView_getattr_precedence_witness :
    demoView.getattrResult "obj" = OVResult.view
      { base := PyVal.vnone
        overlay := some (PyVal.obj [("kind", PyVal.str "route")])
        collections := demoView.collections
        overlaysByPath := demoView.overlaysByPath
        path := ["obj"] }
    ∧ demoView.getattrResult "speed" = OVResult.val (PyVal.nat 3)
    ∧ demoView.getattrResult "name" = OVResult.val (PyVal.str "base")
    ∧ demoView.getattrResult "waypoints" = OVResult.val (PyVal.obj [])
    ∧ demoView.getattrResult "unknown" = OVResult.attrError := by
  refine ⟨?_, ?_, ?_, ?_, ?_⟩
  · exact (overlayView_getattr_precedence demoView "obj").1 _ rfl
  · exact ((overlayView_getattr_precedence demoView "speed").2 rfl).1 _ _ rfl rfl
  · exact (((overlayView_getattr_precedence demoView "name").2 rfl).2
      (fun o ho => by injection ho with ho; rw [← ho]; rfl)).1 _ rfl
  · exact ((((overlayView_getattr_precedence demoView "waypoints").2 rfl).2
      (fun o ho => by injection ho with ho; rw [← ho]; rfl)).2 rfl).1 _ rfl
  · exact ((((overlayView_getattr_precedence demoView "unknown").2 rfl).2
      (fun o ho => by injection ho with ho; rw [← ho]; rfl)).2 rfl).2 rfl

end Umaa.Ov

namespace Umaa.B

open Umaa Umaa.Ov

/-!
## CombinedBuilder and `spawn_child` (`multi_topic_support.py` lines 290–337)

The source `CombinedBuilder` carries `base`, `overlays_by_path`, and
collections; the writer decorators (`multi_topic_writer_decorators.py` lines
146, 264, 376) additionally read a path-keyed `collections_by_path` map and
call `spawn_child`, neither of which is defined anywhere in the repository —
they are modelled here from the spec (§3, §4.C).
-/

/-- Keep the entries of a path-keyed map lying under `p`, re-rooted at `p`
(entry `p ++ q ↦ v` becomes `q ↦ v`). -/
def sliceUnder {β : Type} (p : List String) (m : List (List String × β)) :
    List (List String × β) :=
  m.filterMap (fun kv =>
    if kv.1.take p.length = p then some (kv.1.drop p.length, kv.2) else none)

/-- Looking up `q` in the slice under `p` is looking up `p ++ q` in the
original map (first match in insertion order, matching `dict` semantics). -/
theorem alookup_sliceUnder {β : Type} (p q : List String) (m : List (List String × β)) :
    alookup q (sliceUnder p m) = alookup (p ++ q) m := by
  induction m with
  | nil => rfl
  | cons kv rest ih =>
    obtain ⟨k, v⟩ := kv
    by_cases hk : k = p ++ q
    · subst hk
      have ht : (p ++ q).take p.length = p := List.take_left p q
      have hd : (p ++ q).drop p.length = q := List.drop_left p q
      simp only [sliceUnder, List.filterMap_cons, ht, if_pos rfl, hd]
      simp [alookup]
    · by_cases htake : k.take p.length = p
      · have hdrop : k.drop p.length ≠ q := by
          intro hc
          apply hk
          rw [← htake, ← hc, List.take_append_drop]
        simpa [sliceUnder, List.filterMap_cons, htake, alookup, hdrop, hk] using ih
      · simp only [sliceUnder, List.filterMap_cons, if_neg htake]
        rw [alookup, if_neg hk]
        exact ih

/-- Writer-side combined builder.  `base` and `overlays_by_path` are as in
`multi_topic_support.py` lines 313–316; `collections_by_path` — the path-keyed
collection map the writer decorators read — is modelled from the spec (§3:
`collections: Map<AttributePath, Map<CollectionName, List<ElementObject>>>`). -/
structure CombinedBuilder where
  base : PyVal
  collections_by_path : List (List String × List (String × List PyVal))
  overlays_by_path : List (List String × PyVal)

/-- Modelled from the spec: `CombinedBuilder.spawn_child(elem_path, elem_obj)`
is invoked by `LargeSetWriter.publish` and `LargeListWriter.publish`
(`multi_topic_writer_decorators.py` lines 264, 376) but is defined nowhere in
the repository.  Per §4.C: "return a child builder whose `base` is `elem_obj`
and whose collections/overlays are the slice of the parent's maps under
`elem_path`". -/
def CombinedBuilder.spawn_child (b : CombinedBuilder) (p : List String) (e : PyVal) :
    CombinedBuilder :=
  { base := e
    collections_by_path := sliceUnder p b.collections_by_path
    overlays_by_path := sliceUnder p b.overlays_by_path }

/-- C2: `spawn_child(p, e)` returns a child builder whose base is `e` and whose
collection and overlay maps are exactly the slice of the parent's maps under
`p`: a child lookup at `q` sees precisely the parent entry at `p ++ q`. -/
theorem spawn_child_slices (b : CombinedBuilder) (p : List String) (e : PyVal) :
    (b.spawn_child p e).base = e
    ∧ (∀ q, alookup q (b.spawn_child p e).collections_by_path
        = alookup (p ++ q) b.collections_by_path)
    ∧ (∀ q, alookup q (b.spawn_child p e).overlays_by_path
        = alookup (p ++ q) b.overlays_by_path) :=
  ⟨rfl, fun q => alookup_sliceUnder p q b.collections_by_path,
    fun q => alookup_sliceUnder p q b.overlays_by_path⟩

end Umaa.B

namespace Umaa.RD

open Umaa

/-!
## LargeListReader chain emission (`multi_topic_reader_decorators.py` lines 278–305)
-/

/-- A Large List element sample as read by `LargeListReader._elem_ids`. -/
structure Elem where
  listID : GUID
  elementID : GUID
  nextElementID : Option GUID
  elementTimestamp : Option Nat
  deriving Repr, DecidableEq

theorem alookup_mem_keys {α β : Type} [DecidableEq α] (k : α) (m : List (α × β)) (v : β)
    (h : alookup k m = some v) : k ∈ m.map Prod.fst := by
  induction m with
  | nil => simp [alookup] at h
  | cons hd tl ih =>
    obtain ⟨k', v'⟩ := hd
    by_cases hk : k' = k
    · subst hk; simp
    · rw [alookup, if_neg hk] at h
      simp [ih h]

theorem filter_cons_visited_lt (keys : List GUID) (visited : List GUID) (cur : GUID)
    (hmem : cur ∈ keys) (hnv : cur ∉ visited) :
    (keys.filter (fun k => decide (k ∉ cur :: visited))).length
      < (keys.filter (fun k => decide (k ∉ visited))).length := by
  induction keys with
  | nil => cases hmem
  | cons k ks ih =>
    rcases List.mem_cons.mp hmem with hk | hk
    · subst hk
      have hmono : List.Sublist (ks.filter (fun x => decide (x ∉ cur :: visited)))
          (ks.filter (fun x => decide (x ∉ visited))) := by
        apply List.monotone_filter_right
        intro a ha
        simp only [decide_eq_true_eq, List.mem_cons, not_or] at ha ⊢
        exact ha.2
      have hlen := hmono.length_le
      have hneg : (decide (cur ∉ cur :: visited)) = false := by simp
      have hpos : (decide (cur ∉ visited)) = true := by simpa using hnv
      simp only [List.filter_cons, hneg, hpos, Bool.false_eq_true, if_false, if_true,
        List.length_cons]
      omega
    · by_cases hkv : k ∈ visited
      · have h1 : (decide (k ∉ cur :: visited)) = false := by simp [hkv]
        have h2 : (decide (k ∉ visited)) = false := by simp [hkv]
        simp only [List.filter_cons, h1, h2, Bool.false_eq_true, if_false]
        exact ih hk
      · by_cases hkc : k = cur
        · subst hkc
          have h1 : (decide (k ∉ k :: visited)) = false := by simp
          have h2 : (decide (k ∉ visited)) = true := by simpa using hkv
          simp only [List.filter_cons, h1, h2, Bool.false_eq_true, if_false, if_true,
            List.length_cons]
          have := ih hk
          omega
        · have h1 : (decide (k ∉ cur :: visited)) = true := by simp [hkc, hkv]
          have h2 : (decide (k ∉ visited)) = true := by simpa using hkv
          simp only [List.filter_cons, h1, h2, if_true, List.length_cons]
          exact Nat.succ_lt_succ (ih hk)

/-- One step bound for the chain walk: keys of the buffer not yet visited. -/
def unvisited (elems : List (GUID × Elem)) (visited : List GUID) : Nat :=
  ((elems.map Prod.fst).filter (fun k => decide (k ∉ visited))).length

theorem unvisited_lt (elems : List (GUID × Elem)) (visited : List GUID) (cur : GUID)
    (hmem : cur ∈ elems.map Prod.fst) (hnv : cur ∉ visited) :
    unvisited elems (cur :: visited) < unvisited elems visited :=
  filter_cons_visited_lt _ _ _ hmem hnv

/-- The `while` loop of `LargeListReader._ordered_chain`: follow `nextElementID`
from `cur`, stopping at a missing key, an already-visited key (cycle), or a
chain end (`nextElementID` absent). -/
def chain_go (elems : List (GUID × Elem)) (cur : GUID) (visited : List GUID) : List Elem :=
  match halo : alookup cur elems with
  | none => []
  | some e =>
    if hv : cur ∈ visited then []
    else
      match e.nextElementID with
      | none => [e]
      | some nxt => e :: chain_go elems nxt (cur :: visited)
termination_by unvisited elems visited
decreasing_by
  exact unvisited_lt elems visited cur (alookup_mem_keys cur elems e halo) hv

/-- `LargeListReader._ordered_chain`: empty buffer gives `[]`; a missing
`startingElementID` falls back to buffer iteration order; otherwise walk. -/
def ordered_chain (elems : List (GUID × Elem)) (start? : Option GUID) : List Elem :=
  if elems = [] then []
  else
    match start? with
    | none => elems.map Prod.snd
    | some s => chain_go elems s []

theorem alookup_mem_pairs {α β : Type} [DecidableEq α] (k : α) (m : List (α × β)) (v : β)
    (h : alookup k m = some v) : (k, v) ∈ m := by
  induction m with
  | nil => simp [alookup] at h
  | cons hd tl ih =>
    obtain ⟨k', v'⟩ := hd
    by_cases hk : k' = k
    · subst hk
      rw [alookup, if_pos rfl] at h
      injection h with h
      subst h
      exact List.mem_cons_self _ _
    · rw [alookup, if_neg hk] at h
      exact List.mem_cons_of_mem _ (ih h)

theorem chain_go_none (elems : List (GUID × Elem)) (cur : GUID) (visited : List GUID)
    (h : alookup cur elems = none) : chain_go elems cur visited = [] := by
  rw [chain_go.eq_def]
  split
  · rfl
  · simp_all

theorem chain_go_visited (elems : List (GUID × Elem)) (cur : GUID) (visited : List GUID)
    (h : cur ∈ visited) : chain_go elems cur visited = [] := by
  rw [chain_go.eq_def]
  split
  · rfl
  · simp [h]

theorem chain_go_next_none (elems : List (GUID × Elem)) (cur : GUID) (visited : List GUID)
    (e : Elem) (h : alookup cur elems = some e) (hnv : cur ∉ visited)
    (hn : e.nextElementID = none) : chain_go elems cur visited = [e] := by
  rw [chain_go.eq_def]
  split
  · simp_all
  · rename_i e' he'
    rw [he'] at h
    injection h with h
    subst h
    rw [dif_neg hnv]
    rw [hn]

theorem chain_go_next_some (elems : List (GUID × Elem)) (cur : GUID) (visited : List GUID)
    (e : Elem) (nxt : GUID) (h : alookup cur elems = some e) (hnv : cur ∉ visited)
    (hn : e.nextElementID = some nxt) :
    chain_go elems cur visited = e :: chain_go elems nxt (cur :: visited) := by
  rw [chain_go.eq_def]
  split
  · simp_all
  · rename_i e' he'
    rw [he'] at h
    injection h with h
    subst h
    rw [dif_neg hnv]
    rw [hn]

theorem chain_go_head (elems : List (GUID × Elem)) (cur : GUID) (visited : List GUID)
    (e : Elem) (h : alookup cur elems = some e) (hnv : cur ∉ visited) :
    (chain_go elems cur visited).head? = some e := by
  match hn : e.nextElementID with
  | none => rw [chain_go_next_none elems cur visited e h hnv hn]; rfl
  | some nxt => rw [chain_go_next_some elems cur visited e nxt h hnv hn]; rfl

/-- Invariants of the chain walk: every emitted element is the buffer's value at
its own `elementID`, no visited key is emitted, the emitted keys are pairwise
distinct, and consecutive emitted elements are linked by `nextElementID`. -/
theorem chain_go_invariant (elems : List (GUID × Elem))
    (hkey : ∀ p ∈ elems, (p.2).elementID = p.1)
    (cur : GUID) (visited : List GUID) :
    (∀ x ∈ chain_go elems cur visited, alookup x.elementID elems = some x ∧ x.elementID ∉ visited)
    ∧ ((chain_go elems cur visited).map (fun x => x.elementID)).Nodup
    ∧ List.Chain' (fun a b => a.nextElementID = some b.elementID)
        (chain_go elems cur visited) := by
  have hkey' : ∀ k e, alookup k elems = some e → e.elementID = k := fun k e h =>
    hkey (k, e) (alookup_mem_pairs k elems e h)
  induction cur, visited using chain_go.induct elems with
  | case1 cur visited h =>
    simp [chain_go_none _ _ _ h]
  | case2 cur visited e h hv =>
    simp [chain_go_visited _ _ _ hv]
  | case3 cur visited e h hnv hn =>
    have hres := chain_go_next_none elems cur visited e h hnv
    rw [hres hn]
    have hid := hkey' cur e h
    refine ⟨?_, by simp, by simp⟩
    intro x hx
    rw [List.mem_singleton] at hx
    subst hx
    rw [hid]
    exact ⟨h, hnv⟩
  | case4 cur visited e h hnv nxt hn ih =>
    have hres := chain_go_next_some elems cur visited e nxt h hnv hn
    rw [hres]
    obtain ⟨ihmem, ihnodup, ihchain⟩ := ih
    have hid := hkey' cur e h
    refine ⟨?_, ?_, ?_⟩
    · intro x hx
      rcases List.mem_cons.mp hx with hx | hx
      · subst hx
        rw [hid]
        exact ⟨h, hnv⟩
      · obtain ⟨h1, h2⟩ := ihmem x hx
        exact ⟨h1, fun hc => h2 (List.mem_cons_of_mem _ hc)⟩
    · rw [List.map_cons]
      rw [List.nodup_cons]
      refine ⟨?_, ihnodup⟩
      intro hc
      rw [List.mem_map] at hc
      obtain ⟨x, hx, hxe⟩ := hc
      obtain ⟨_, h2⟩ := ihmem x hx
      rw [hxe, hid] at h2
      exact h2 (List.mem_cons_self _ _)
    · rw [List.chain'_cons']
      refine ⟨?_, ihchain⟩
      intro b hb
      match halo2 : alookup nxt elems with
      | none =>
        rw [chain_go_none _ _ _ halo2] at hb
        simp at hb
      | some e₂ =>
        by_cases hmem2 : nxt ∈ cur :: visited
        · rw [chain_go_visited _ _ _ hmem2] at hb
          simp at hb
        · rw [chain_go_head elems nxt (cur :: visited) e₂ halo2 hmem2] at hb
          have hb : e₂ = b := by simpa using hb
          subst hb
          rw [hn, hkey' nxt e₂ halo2]

/-- C4: `LargeListReader` emission with a present `startingElementID` is the
chain walk; it has no duplicate elements, visits each reachable element at most
once (pairwise-distinct element IDs), is in chain order (each element's
`nextElementID` names its successor), emits only buffered elements, and starts
at the buffered starting element.  Hypothesis `hkey`: the buffer maps each
`elementID` to its element, as maintained by `on_child_assembled`
(`bucket[elem_id_k] = elem`). -/
theorem largeListReader_ordered_chain_correct (elems : List (GUID × Elem)) (s : GUID)
    (hkey : ∀ p ∈ elems, (p.2).elementID = p.1) :
    ((ordered_chain elems (some s)).map (fun x => x.elementID)).Nodup
    ∧ (ordered_chain elems (some s)).Nodup
    ∧ List.Chain' (fun a b => a.nextElementID = some b.elementID)
        (ordered_chain elems (some s))
    ∧ (∀ x ∈ ordered_chain elems (some s), alookup x.elementID elems = some x)
    ∧ (∀ e, alookup s elems = some e → (ordered_chain elems (some s)).head? = some e) := by
  by_cases hne : elems = []
  · subst hne
    refine ⟨by simp [ordered_chain], by simp [ordered_chain], by simp [ordered_chain],
      by simp [ordered_chain], ?_⟩
    intro e he
    simp [alookup] at he
  · have hoc : ordered_chain elems (some s) = chain_go elems s [] := by
      rw [ordered_chain, if_neg hne]
    obtain ⟨hmem, hnodup, hchain⟩ := chain_go_invariant elems hkey s []
    refine ⟨hoc ▸ hnodup, hoc ▸ hnodup.of_map, hoc ▸ hchain, ?_, ?_⟩
    · intro x hx
      exact (hmem x (hoc ▸ hx)).1
    · intro e he
      rw [hoc]
      exact chain_go_head elems s [] e he (List.not_mem_nil s)

/-- Concrete buffer for the C4 witness: two elements `1 → 2`. -/
def demoElems : List (GUID × Elem) :=
  [(1, ⟨7, 1, some 2, none⟩), (2, ⟨7, 2, none, none⟩)]

/-- Witness for C4 at a concrete two-element buffer. -/
theorem largeListReader_ordered_chain_correct_witness :
    ((ordered_chain demoElems (some 1)).map (fun x => x.elementID)).Nodup
    ∧ (ordered_chain demoElems (some 1)).Nodup
    ∧ List.Chain' (fun a b => a.nextElementID = some b.elementID)
        (ordered_chain demoElems (some 1))
    ∧ (∀ x ∈ ordered_chain demoElems (some 1), alookup x.elementID demoElems = some x)
    ∧ (∀ e, alookup 1 demoElems = some e → (ordered_chain demoElems (some 1)).head? = some e) :=
  largeListReader_ordered_chain_correct demoElems 1 (by decide)

end Umaa.RD

namespace Umaa.W

open Umaa

/-!
## Writer decorators (`multi_topic_writer_decorators.py`)

Each decorator's `publish` is embedded as a function from its inputs — the
objects it reads and mutates, plus the GUID supply — to a result record holding
the final state of those objects, the element writes fanned out to the child
`WriterNode` (in order), the final supply, and the error raised, if any
(`error = some msg` models an exception propagating out of `publish`; the
other result fields then hold the state at the time of the raise).  Collection
resolution (`_resolve_items_with_attr_path`) is passed in as the already
resolved `items` list.
-/

/-- Generalization object fields bound by `GenSpecWriter._bind_generalization`. -/
structure GenObj where
  specializationTopic : String
  specializationID : GUID
  specializationTimestamp : Option Nat
  deriving Repr, DecidableEq

/-- Specialization object: its topic (`_spec_topic_name`, derived from the
generated class name) and the identity read by `_spec_identity`. -/
structure SpecObj where
  topic : String
  specializationReferenceID : GUID
  specializationReferenceTimestamp : Option Nat
  deriving Repr, DecidableEq

/-- Result of `GenSpecWriter.publish`. -/
structure GSResult where
  spec : Option SpecObj
  gen : GenObj
  writes : List SpecObj
  supply : Nat
  error : Option String
  deriving Repr, DecidableEq

/-- `GenSpecWriter._bind_generalization` (lines 127–132): write
`(topic, spec_id)` into the generalization; the timestamp only when present. -/
def bind_generalization (gen : GenObj) (topic : String) (specId : GUID)
    (specTs : Option Nat) : GenObj :=
  { specializationTopic := topic
    specializationID := specId
    specializationTimestamp :=
      match specTs with
      | some t => some t
      | none => gen.specializationTimestamp }

/-- `GenSpecWriter.publish` (lines 141–170): no-op without a specialization;
raise if no child `WriterNode` is registered under the specialization's topic
(before any mutation); allocate `specializationReferenceID` only when it is
`NIL_GUID`; publish the specialization to the child; bind the generalization. -/
def genSpecPublish (spec? : Option SpecObj) (gen : GenObj) (children : List String)
    (supply : Nat) : GSResult :=
  match spec? with
  | none => ⟨none, gen, [], supply, none⟩
  | some spec =>
    if spec.topic ∈ children then
      let ss :=
        if spec.specializationReferenceID = NIL_GUID then
          let gs := generate_guid supply
          ({ spec with specializationReferenceID := gs.1 }, gs.2)
        else (spec, supply)
      let gen' := bind_generalization gen spec.topic ss.1.specializationReferenceID
        ss.1.specializationReferenceTimestamp
      ⟨some ss.1, gen', [ss.1], ss.2, none⟩
    else
      ⟨some spec, gen, [], supply,
        some "GenSpecWriter: no child WriterNode for specialization topic"⟩

/-- Large Set metadata object (`<set_name>SetMetadata`). -/
structure SetMeta where
  setID : GUID
  updateElementID : Option GUID
  updateElementTimestamp : Option Nat
  size : Nat
  deriving Repr, DecidableEq

/-- Large Set element sample. -/
structure SetElem where
  setID : GUID
  elementID : GUID
  elementTimestamp : Option Nat
  deriving Repr, DecidableEq

/-- Result of `LargeSetWriter.publish`. -/
structure LSResult where
  meta : SetMeta
  items : List SetElem
  writes : List SetElem
  supply : Nat
  error : Option String
  deriving Repr, DecidableEq

/-- `LargeSetWriter.publish` (lines 236–270): allocate `setID` when missing or
`NIL_GUID`; set `size` to the element count; with no elements return before
selecting a child; otherwise stamp each element's `setID`, publish it to the
child, and finally point `updateElementID` (and the timestamp when present) at
the last published element. -/
def largeSetPublish (meta : SetMeta) (items : List SetElem) (supply : Nat)
    (hasChild : Bool) : LSResult :=
  let ss := if meta.setID = NIL_GUID then generate_guid supply else (meta.setID, supply)
  let meta1 := { meta with setID := ss.1, size := items.length }
  match items with
  | [] => ⟨meta1, items, [], ss.2, none⟩
  | e0 :: rest =>
    if hasChild then
      let items' := (e0 :: rest).map (fun e => { e with setID := ss.1 })
      let lastE := rest.getLastD e0
      let meta2 := { meta1 with
        updateElementID := some lastE.elementID
        updateElementTimestamp :=
          match lastE.elementTimestamp with
          | some t => some t
          | none => meta1.updateElementTimestamp }
      ⟨meta2, items', items', ss.2, none⟩
    else
      ⟨meta1, e0 :: rest, [], ss.2, some "LargeSetWriter: cannot select child"⟩

/-- Large List metadata object (`<list_name>ListMetadata`). -/
structure ListMeta where
  listID : GUID
  startingElementID : Option GUID
  updateElementID : Option GUID
  updateElementTimestamp : Option Nat
  size : Nat
  deriving Repr, DecidableEq

/-- Large List element sample (writer side). -/
structure LElem where
  listID : GUID
  elementID : GUID
  nextElementID : Option GUID
  elementTimestamp : Option Nat
  deriving Repr, DecidableEq

/-- Result of `LargeListWriter.publish`. -/
structure LLResult where
  meta : ListMeta
  items : List LElem
  writes : List LElem
  supply : Nat
  error : Option String
  deriving Repr, DecidableEq

/-- The chain-linking loop of `LargeListWriter.publish` (lines 369–372): each
element's `listID` is set to the list's id and its `nextElementID` to the
successor's `elementID` (`None` for the last element). -/
def linkChain (lid : GUID) : List LElem → List LElem
  | [] => []
  | e :: rest =>
    { e with listID := lid, nextElementID := rest.head?.map (fun x => x.elementID) }
      :: linkChain lid rest

/-- `LargeListWriter.publish` (lines 347–385): allocate `listID` when missing
or `NIL_GUID`; set `size`; with no elements return before selecting a child;
otherwise link the chain, publish each element to the child in order, and set
`startingElementID` to the first element's id and `updateElementID` (plus the
timestamp when present) to the last element's identity.  The chain loop does
not modify `elementID`/`elementTimestamp`, so the final metadata reads, which
the source takes from the mutated elements, equal those on the originals. -/
def largeListPublish (meta : ListMeta) (items : List LElem) (supply : Nat)
    (hasChild : Bool) : LLResult :=
  let ss := if meta.listID = NIL_GUID then generate_guid supply else (meta.listID, supply)
  let meta1 := { meta with listID := ss.1, size := items.length }
  match items with
  | [] => ⟨meta1, items, [], ss.2, none⟩
  | e0 :: rest =>
    if hasChild then
      let items' := linkChain ss.1 (e0 :: rest)
      let lastE := rest.getLastD e0
      let meta2 := { meta1 with
        startingElementID := some e0.elementID
        updateElementID := some lastE.elementID
        updateElementTimestamp :=
          match lastE.elementTimestamp with
          | some t => some t
          | none => meta1.updateElementTimestamp }
      ⟨meta2, items', items', ss.2, none⟩
    else
      ⟨meta1, e0 :: rest, [], ss.2, some "LargeListWriter: cannot select child"⟩

theorem linkChain_length (lid : GUID) (l : List LElem) :
    (linkChain lid l).length = l.length := by
  induction l with
  | nil => rfl
  | cons e rest ih => simp [linkChain, ih]

theorem linkChain_getElem? (lid : GUID) (l : List LElem) (i : Nat) :
    (linkChain lid l)[i]? = (l[i]?).map (fun e =>
      { e with
        listID := lid
        nextElementID := (l[i + 1]?).map (fun x => x.elementID) }) := by
  induction l generalizing i with
  | nil => simp [linkChain]
  | cons e rest ih =>
    match i with
    | 0 =>
      simp only [linkChain, List.getElem?_cons_zero, List.getElem?_cons_succ, Option.map_some]
      rw [List.head?_eq_getElem?]
      rfl
    | i + 1 =>
      simp only [linkChain, List.getElem?_cons_succ]
      exact ih i

/-- C5: publishing `k ≥ 1` elements through `LargeListWriter` assigns every
element's `listID` to the metadata's (post-allocation) `listID`, chains each
`nextElementID` to the successor's `elementID` with the last absent, then sets
`startingElementID` to the first element's id, `updateElementID` to the last
element's id (and `updateElementTimestamp` when the last element carries a
timestamp), and `size` to the element count. -/
theorem largeListWriter_publish_chains (meta : ListMeta) (items : List LElem)
    (supply : Nat) (hne : items ≠ []) :
    (largeListPublish meta items supply true).error = none
    ∧ (largeListPublish meta items supply true).items.length = items.length
    ∧ (∀ i : Nat, (largeListPublish meta items supply true).items[i]?
        = (items[i]?).map (fun e : LElem =>
        { e with
          listID := (largeListPublish meta items supply true).meta.listID
          nextElementID := (items[i + 1]?).map (fun x => x.elementID) }))
    ∧ (largeListPublish meta items supply true).meta.startingElementID
        = items.head?.map (fun x => x.elementID)
    ∧ (largeListPublish meta items supply true).meta.updateElementID
        = items.getLast?.map (fun x => x.elementID)
    ∧ (largeListPublish meta items supply true).meta.updateElementTimestamp
        = (match items.getLast? with
           | some e =>
             match e.elementTimestamp with
             | some t => some t
             | none => meta.updateElementTimestamp
           | none => meta.updateElementTimestamp)
    ∧ (largeListPublish meta items supply true).meta.size = items.length := by
  match items with
  | [] => exact absurd rfl hne
  | e0 :: rest =>
    have hres : largeListPublish meta (e0 :: rest) supply true =
        let ss := if meta.listID = NIL_GUID then generate_guid supply
                  else (meta.listID, supply)
        let meta1 := { meta with listID := ss.1, size := (e0 :: rest).length }
        ⟨{ meta1 with
            startingElementID := some e0.elementID
            updateElementID := some (rest.getLastD e0).elementID
            updateElementTimestamp :=
              match (rest.getLastD e0).elementTimestamp with
              | some t => some t
              | none => meta1.updateElementTimestamp },
          linkChain ss.1 (e0 :: rest), linkChain ss.1 (e0 :: rest), ss.2, none⟩ := rfl
    rw [hres]
    have hlast : (e0 :: rest).getLast? = some (rest.getLastD e0) := by
      rw [List.getLast?_cons, List.getLastD_eq_getLast?]
    refine ⟨rfl, by simp [linkChain_length], ?_, by simp, ?_, ?_, rfl⟩
    · intro i
      exact linkChain_getElem? _ (e0 :: rest) i
    · rw [hlast]
      rfl
    · rw [hlast]

/-- Witness for C5 at two concrete elements. -/
theorem largeListWriter_publish_chains_witness :
    (largeListPublish ⟨0, none, none, none, 0⟩
        [⟨0, 4, none, some 11⟩, ⟨0, 5, none, none⟩] 9 true).error = none
    ∧ (largeListPublish ⟨0, none, none, none, 0⟩
        [⟨0, 4, none, some 11⟩, ⟨0, 5, none, none⟩] 9 true).items.length = 2
    ∧ (∀ i : Nat, (largeListPublish ⟨0, none, none, none, 0⟩
        [⟨0, 4, none, some 11⟩, ⟨0, 5, none, none⟩] 9 true).items[i]?
        = (([⟨0, 4, none, some 11⟩, ⟨0, 5, none, none⟩] : List LElem)[i]?).map (fun e : LElem =>
          { e with
            listID := (largeListPublish ⟨0, none, none, none, 0⟩
              [⟨0, 4, none, some 11⟩, ⟨0, 5, none, none⟩] 9 true).meta.listID
            nextElementID := (([⟨0, 4, none, some 11⟩,
              ⟨0, 5, none, none⟩] : List LElem)[i + 1]?).map (fun x => x.elementID) }))
    ∧ (largeListPublish ⟨0, none, none, none, 0⟩
        [⟨0, 4, none, some 11⟩, ⟨0, 5, none, none⟩] 9 true).meta.startingElementID = some 4
    ∧ (largeListPublish ⟨0, none, none, none, 0⟩
        [⟨0, 4, none, some 11⟩, ⟨0, 5, none, none⟩] 9 true).meta.updateElementID = some 5
    ∧ (largeListPublish ⟨0, none, none, none, 0⟩
        [⟨0, 4, none, some 11⟩, ⟨0, 5, none, none⟩] 9 true).meta.size = 2 := by
  have h := largeListWriter_publish_chains ⟨0, none, none, none, 0⟩
    [⟨0, 4, none, some 11⟩, ⟨0, 5, none, none⟩] 9 (by decide)
  exact ⟨h.1, by simpa using h.2.1, h.2.2.1, by simpa using h.2.2.2.1,
    by simpa using h.2.2.2.2.1, by simpa using h.2.2.2.2.2.2⟩

/-- C8: publishing a builder whose set collection is empty sets `size` to 0,
publishes no element to any child writer node, leaves `updateElementID` and
`updateElementTimestamp` unchanged, and raises nothing (the child writer is
not even selected, so this holds with or without a child attached). -/
theorem largeSetWriter_publish_empty (meta : SetMeta) (supply : Nat) (hasChild : Bool) :
    (largeSetPublish meta [] supply hasChild).meta.size = 0
    ∧ (largeSetPublish meta [] supply hasChild).writes = []
    ∧ (largeSetPublish meta [] supply hasChild).meta.updateElementID = meta.updateElementID
    ∧ (largeSetPublish meta [] supply hasChild).meta.updateElementTimestamp
        = meta.updateElementTimestamp
    ∧ (largeSetPublish meta [] supply hasChild).error = none :=
  ⟨rfl, rfl, rfl, rfl, rfl⟩

/-- C10: when no child `WriterNode` is registered under the specialization's
topic, `GenSpecWriter.publish` raises before doing anything: the
specialization keeps its prior `specializationReferenceID` (no fresh GUID is
allocated — the supply is untouched), the generalization is not modified, and
nothing is written. -/
theorem genSpecWriter_publish_no_child_atomic (spec : SpecObj) (gen : GenObj)
    (children : List String) (supply : Nat) (h : spec.topic ∉ children) :
    (genSpecPublish (some spec) gen children supply).error.isSome
    ∧ (genSpecPublish (some spec) gen children supply).spec = some spec
    ∧ (genSpecPublish (some spec) gen children supply).gen = gen
    ∧ (genSpecPublish (some spec) gen children supply).writes = []
    ∧ (genSpecPublish (some spec) gen children supply).supply = supply := by
  simp [genSpecPublish, h]

/-- Witness for C10: a specialization whose topic has no registered child. -/
theorem genSpecWriter_publish_no_child_atomic_witness :
    (genSpecPublish (some ⟨"SpecTopic", 0, none⟩) ⟨"", 0, none⟩ [] 5).error.isSome
    ∧ (genSpecPublish (some ⟨"SpecTopic", 0, none⟩) ⟨"", 0, none⟩ [] 5).spec
        = some ⟨"SpecTopic", 0, none⟩
    ∧ (genSpecPublish (some ⟨"SpecTopic", 0, none⟩) ⟨"", 0, none⟩ [] 5).gen = ⟨"", 0, none⟩
    ∧ (genSpecPublish (some ⟨"SpecTopic", 0, none⟩) ⟨"", 0, none⟩ [] 5).writes = []
    ∧ (genSpecPublish (some ⟨"SpecTopic", 0, none⟩) ⟨"", 0, none⟩ [] 5).supply = 5 :=
  genSpecWriter_publish_no_child_atomic ⟨"SpecTopic", 0, none⟩ ⟨"", 0, none⟩ [] 5
    (by simp)

theorem getLastD_map {α β : Type} (f : α → β) (l : List α) (d : α) :
    (l.map f).getLastD (f d) = f (l.getLastD d) := by
  induction l generalizing d with
  | nil => rfl
  | cons a l ih => rw [List.map_cons, List.getLastD_cons, List.getLastD_cons, ih]

theorem linkChain_head?_elementID (lid : GUID) (l : List LElem) :
    (linkChain lid l).head?.map (fun x => x.elementID)
      = l.head?.map (fun x => x.elementID) := by
  cases l <;> rfl

theorem linkChain_idem (lid : GUID) (l : List LElem) :
    linkChain lid (linkChain lid l) = linkChain lid l := by
  induction l with
  | nil => rfl
  | cons e rest ih =>
    rw [linkChain, linkChain, ih]
    rw [linkChain_head?_elementID]

theorem linkChain_getLastD_fields (lid : GUID) (l : List LElem) (d d' : LElem)
    (hid : d'.elementID = d.elementID) (hts : d'.elementTimestamp = d.elementTimestamp) :
    ((linkChain lid l).getLastD d').elementID = (l.getLastD d).elementID
    ∧ ((linkChain lid l).getLastD d').elementTimestamp = (l.getLastD d).elementTimestamp := by
  induction l generalizing d d' with
  | nil => exact ⟨hid, hts⟩
  | cons e rest ih =>
    rw [linkChain, List.getLastD_cons, List.getLastD_cons]
    exact ih e _ rfl rfl

theorem largeSetPublish_idem (meta : SetMeta) (items : List SetElem) (supply : Nat)
    (hasChild : Bool) (h : items = [] ∨ hasChild = true) :
    largeSetPublish (largeSetPublish meta items supply hasChild).meta
        (largeSetPublish meta items supply hasChild).items
        (largeSetPublish meta items supply hasChild).supply hasChild
      = ⟨(largeSetPublish meta items supply hasChild).meta,
         (largeSetPublish meta items supply hasChild).items,
         (largeSetPublish meta items supply hasChild).writes,
         (largeSetPublish meta items supply hasChild).supply, none⟩ := by
  have hmap : ∀ (sid : GUID) (l : List SetElem),
      (l.map (fun e => { e with setID := sid })).map (fun e => { e with setID := sid })
        = l.map (fun e => { e with setID := sid }) := by
    intro sid l
    rw [List.map_map]
    rfl
  have hcases : items = [] ∨ (∃ e0 rest, items = e0 :: rest) ∧ hasChild = true := by
    rcases h with h | h
    · exact Or.inl h
    · match items with
      | [] => exact Or.inl rfl
      | e0 :: rest => exact Or.inr ⟨⟨e0, rest, rfl⟩, h⟩
  rcases hcases with h0 | ⟨⟨e0, rest, hi⟩, hc⟩
  · subst h0
    by_cases hnil : meta.setID = NIL_GUID
    · simp [largeSetPublish, hnil, generate_guid, NIL_GUID]
    · simp [largeSetPublish, hnil]
  · subst hi
    subst hc
    by_cases hnil : meta.setID = NIL_GUID
    · simp [largeSetPublish, hnil, generate_guid, NIL_GUID, hmap, getLastD_map]
      rcases hlast : (rest.getLast?.getD e0).elementTimestamp with _ | t <;> simp [hlast]
    · simp [largeSetPublish, hnil, hmap, getLastD_map]
      rcases hlast : (rest.getLast?.getD e0).elementTimestamp with _ | t <;> simp [hlast]

theorem largeListPublish_idem (meta : ListMeta) (items : List LElem) (supply : Nat)
    (hasChild : Bool) (h : items = [] ∨ hasChild = true) :
    largeListPublish (largeListPublish meta items supply hasChild).meta
        (largeListPublish meta items supply hasChild).items
        (largeListPublish meta items supply hasChild).supply hasChild
      = ⟨(largeListPublish meta items supply hasChild).meta,
         (largeListPublish meta items supply hasChild).items,
         (largeListPublish meta items supply hasChild).writes,
         (largeListPublish meta items supply hasChild).supply, none⟩ := by
  have hcases : items = [] ∨ (∃ e0 rest, items = e0 :: rest) ∧ hasChild = true := by
    rcases h with h | h
    · exact Or.inl h
    · match items with
      | [] => exact Or.inl rfl
      | e0 :: rest => exact Or.inr ⟨⟨e0, rest, rfl⟩, h⟩
  rcases hcases with h0 | ⟨⟨e0, rest, hi⟩, hc⟩
  · subst h0
    by_cases hnil : meta.listID = NIL_GUID
    · simp [largeListPublish, hnil, generate_guid, NIL_GUID]
    · simp [largeListPublish, hnil]
  · subst hi
    subst hc
    by_cases hnil : meta.listID = NIL_GUID
    · obtain ⟨hid, hts⟩ := linkChain_getLastD_fields (generate_guid supply).1 rest e0
        { e0 with
          listID := (generate_guid supply).1
          nextElementID := rest.head?.map (fun x => x.elementID) } rfl rfl
      simp only [List.getLastD_eq_getLast?, generate_guid] at hid hts
      simp [largeListPublish, hnil, generate_guid, NIL_GUID, linkChain_idem,
        linkChain_length, linkChain, linkChain_head?_elementID]
      rcases hlast : (rest.getLast?.getD e0).elementTimestamp with _ | t <;>
        simp [hlast, hid, hts]
    · obtain ⟨hid, hts⟩ := linkChain_getLastD_fields meta.listID rest e0
        { e0 with
          listID := meta.listID
          nextElementID := rest.head?.map (fun x => x.elementID) } rfl rfl
      simp only [List.getLastD_eq_getLast?] at hid hts
      simp [largeListPublish, hnil, linkChain_idem, linkChain_length, linkChain,
        linkChain_head?_elementID]
      rcases hlast : (rest.getLast?.getD e0).elementTimestamp with _ | t <;>
        simp [hlast, hid, hts]

/-- C7: re-publishing with no builder mutation is the identity on identifiers,
wire content, and the GUID supply, for each of the three writer decorators.
After a first successful `publish`, running `publish` again on the resulting
state returns exactly the same state and writes, with no error and with the
supply unchanged — i.e. every GUID already assigned (non-nil
`specializationReferenceID`, `setID`, `listID`) is kept and no new GUID is
allocated during the second call. -/
theorem writer_publish_idempotent (spec : SpecObj) (gen : GenObj) (children : List String)
    (supplyG : Nat) (hmem : spec.topic ∈ children)
    (smeta : SetMeta) (sitems : List SetElem) (supplyS : Nat)
    (lmeta : ListMeta) (litems : List LElem) (supplyL : Nat)
    (hasChildS hasChildL : Bool)
    (hs : sitems = [] ∨ hasChildS = true) (hl : litems = [] ∨ hasChildL = true) :
    ((genSpecPublish (some spec) gen children supplyG).error = none
      ∧ genSpecPublish (genSpecPublish (some spec) gen children supplyG).spec
          (genSpecPublish (some spec) gen children supplyG).gen children
          (genSpecPublish (some spec) gen children supplyG).supply
        = ⟨(genSpecPublish (some spec) gen children supplyG).spec,
           (genSpecPublish (some spec) gen children supplyG).gen,
           (genSpecPublish (some spec) gen children supplyG).writes,
           (genSpecPublish (some spec) gen children supplyG).supply, none⟩)
    ∧ ((largeSetPublish smeta sitems supplyS hasChildS).error = none
      ∧ largeSetPublish (largeSetPublish smeta sitems supplyS hasChildS).meta
          (largeSetPublish smeta sitems supplyS hasChildS).items
          (largeSetPublish smeta sitems supplyS hasChildS).supply hasChildS
        = ⟨(largeSetPublish smeta sitems supplyS hasChildS).meta,
           (largeSetPublish smeta sitems supplyS hasChildS).items,
           (largeSetPublish smeta sitems supplyS hasChildS).writes,
           (largeSetPublish smeta sitems supplyS hasChildS).supply, none⟩)
    ∧ ((largeListPublish lmeta litems supplyL hasChildL).error = none
      ∧ largeListPublish (largeListPublish lmeta litems supplyL hasChildL).meta
          (largeListPublish lmeta litems supplyL hasChildL).items
          (largeListPublish lmeta litems supplyL hasChildL).supply hasChildL
        = ⟨(largeListPublish lmeta litems supplyL hasChildL).meta,
           (largeListPublish lmeta litems supplyL hasChildL).items,
           (largeListPublish lmeta litems supplyL hasChildL).writes,
           (largeListPublish lmeta litems supplyL hasChildL).supply, none⟩) := by
  refine ⟨⟨?_, ?_⟩, ⟨?_, ?_⟩, ⟨?_, ?_⟩⟩
  · by_cases hnil : spec.specializationReferenceID = NIL_GUID <;>
      simp [genSpecPublish, hmem, hnil]
  · by_cases hnil : spec.specializationReferenceID = NIL_GUID
    · rcases hts : spec.specializationReferenceTimestamp with _ | t <;>
        simp [genSpecPublish, hmem, hnil, hts, bind_generalization, generate_guid, NIL_GUID]
    · rcases hts : spec.specializationReferenceTimestamp with _ | t <;>
        simp [genSpecPublish, hmem, hnil, hts, bind_generalization, generate_guid]
  · rcases hs with hs | hs
    · subst hs; rfl
    · cases sitems <;> simp [largeSetPublish, hs]
  · exact largeSetPublish_idem smeta sitems supplyS hasChildS hs
  · rcases hl with hl | hl
    · subst hl; rfl
    · cases litems <;> simp [largeListPublish, hl]
  · exact largeListPublish_idem lmeta litems supplyL hasChildL hl

/-- Witness for C7: one specialization with a registered child, a one-element
set, and a one-element list, each published twice. -/
theorem writer_publish_idempotent_witness :
    (genSpecPublish (some ⟨"T", 0, none⟩) ⟨"", 0, none⟩ ["T"] 0).error = none
    ∧ (largeSetPublish ⟨0, none, none, 0⟩ [⟨0, 2, none⟩] 3 true).error = none
    ∧ (largeListPublish ⟨0, none, none, none, 0⟩ [⟨0, 5, none, none⟩] 4 true).error = none
    ∧ largeSetPublish (largeSetPublish ⟨0, none, none, 0⟩ [⟨0, 2, none⟩] 3 true).meta
        (largeSetPublish ⟨0, none, none, 0⟩ [⟨0, 2, none⟩] 3 true).items
        (largeSetPublish ⟨0, none, none, 0⟩ [⟨0, 2, none⟩] 3 true).supply true
      = ⟨(largeSetPublish ⟨0, none, none, 0⟩ [⟨0, 2, none⟩] 3 true).meta,
         (largeSetPublish ⟨0, none, none, 0⟩ [⟨0, 2, none⟩] 3 true).items,
         (largeSetPublish ⟨0, none, none, 0⟩ [⟨0, 2, none⟩] 3 true).writes,
         (largeSetPublish ⟨0, none, none, 0⟩ [⟨0, 2, none⟩] 3 true).supply, none⟩ := by
  have h := writer_publish_idempotent ⟨"T", 0, none⟩ ⟨"", 0, none⟩ ["T"] 0 (by simp)
    ⟨0, none, none, 0⟩ [⟨0, 2, none⟩] 3 ⟨0, none, none, none, 0⟩ [⟨0, 5, none, none⟩] 4
    true true (Or.inr rfl) (Or.inr rfl)
  exact ⟨h.1.1, h.2.1.1, h.2.2.1, h.2.1.2⟩

end Umaa.W

namespace Umaa.GS

open Umaa

/-!
## GenSpecReader (`multi_topic_reader_decorators.py` lines 9–110)

The decorator's two handlers are embedded as total functions on its buffer
state plus the owning node's `_combined_by_key` cache; the returned signal list
models the `Iterable[AssemblySignal]` yield.  Neither handler has a raise path
in the source: every mismatch returns `()` after buffering.
-/

/-- Signal yielded by a reader decorator (`multi_topic_reader.py` lines 28–42). -/
structure AssemblySignal where
  key : Nat
  complete : Bool
  deriving Repr, DecidableEq

/-- Reader-side specialization sample, as read by `GenSpecReader._spec_binding`. -/
structure RSpec where
  specializationID : GUID
  specializationTimestamp : Option Nat
  deriving Repr, DecidableEq

/-- Reader-side generalization object, as read by `GenSpecReader._gen_binding`. -/
structure RGen where
  specializationTopic : String
  specializationID : GUID
  specializationTimestamp : Option Nat
  deriving Repr, DecidableEq

/-- The `CombinedSample` fields this decorator touches: the legacy top-level
overlay and the path-keyed overlays (`with_overlay` / `add_overlay_at`). -/
structure GSCombined where
  overlay : Option RSpec
  overlaysByPath : List (List String × RSpec)
  deriving Repr, DecidableEq

/-- `CombinedSample.with_overlay` (returns a new instance). -/
def GSCombined.with_overlay (c : GSCombined) (spec : RSpec) : GSCombined :=
  { c with overlay := some spec }

/-- `CombinedSample.add_overlay_at` (returns a new instance). -/
def GSCombined.add_overlay_at (c : GSCombined) (p : List String) (spec : RSpec) :
    GSCombined :=
  { c with overlaysByPath := aset p spec c.overlaysByPath }

/-- `GenSpecReader.__init__` state: generalizations waiting by spec id,
buffered specializations by `(topic, spec id)`, and owning parent keys. -/
structure GSState where
  attr_path : List String
  gen_by_spec_id : List (GUID × RGen)
  spec_by_topic_id : List (String × List (GUID × RSpec))
  parent_key_by_spec_id : List (GUID × Nat)
  deriving Repr, DecidableEq

/-- Overlay installation on match (lines 74 and 108): `add_overlay_at` when an
attribute path is set, else `with_overlay`. -/
def installOverlay (attrPath : List String) (c : GSCombined) (spec : RSpec) : GSCombined :=
  if attrPath ≠ [] then c.add_overlay_at attrPath spec else c.with_overlay spec

/-- `GenSpecReader.on_reader_data` (lines 56–78): buffer the generalization and
parent key by spec id; look up a buffered specialization under
`(specializationTopic, specializationID)`; on id match with timestamp gate
(`sts is None or ssts == sts`), install the overlay into the node's combined
cache and signal completion; otherwise yield nothing. -/
def on_reader_data (st : GSState) (key : Nat) (gen : RGen)
    (cbk : List (Nat × GSCombined)) :
    GSState × List (Nat × GSCombined) × List AssemblySignal :=
  let sid := gen.specializationID
  let st1 := { st with
    gen_by_spec_id := aset sid gen st.gen_by_spec_id
    parent_key_by_spec_id := aset sid key st.parent_key_by_spec_id }
  match alookup sid ((alookup gen.specializationTopic st.spec_by_topic_id).getD []) with
  | none => (st1, cbk, [])
  | some spec =>
    if spec.specializationID = sid
        ∧ (gen.specializationTimestamp = none
            ∨ spec.specializationTimestamp = gen.specializationTimestamp) then
      let comb := (alookup key cbk).getD ⟨none, []⟩
      (st1, aset key (installOverlay st.attr_path comb spec) cbk, [⟨key, true⟩])
    else
      (st1, cbk, [])

/-- `GenSpecReader.on_child_assembled` (lines 80–110): buffer the arriving
specialization under `(child_name, spec id)`; find a waiting generalization;
bail out (after buffering) on topic, GUID, or timestamp disagreement, on a
missing parent key, or on a missing cached combined sample; otherwise install
the overlay and signal completion for the parent key. -/
def on_child_assembled (st : GSState) (childName : String) (spec : RSpec)
    (cbk : List (Nat × GSCombined)) :
    GSState × List (Nat × GSCombined) × List AssemblySignal :=
  let sid := spec.specializationID
  let bucket := (alookup childName st.spec_by_topic_id).getD []
  let st1 := { st with
    spec_by_topic_id := aset childName (aset sid spec bucket) st.spec_by_topic_id }
  match alookup sid st1.gen_by_spec_id with
  | none => (st1, cbk, [])
  | some gen =>
    if gen.specializationTopic ≠ childName
        ∨ ¬ gen.specializationID = sid
        ∨ (gen.specializationTimestamp ≠ none
            ∧ gen.specializationTimestamp ≠ spec.specializationTimestamp) then
      (st1, cbk, [])
    else
      match alookup sid st1.parent_key_by_spec_id with
      | none => (st1, cbk, [])
      | some parentKey =>
        match alookup parentKey cbk with
        | none => (st1, cbk, [])
        | some comb =>
          (st1, aset parentKey (installOverlay st.attr_path comb spec) cbk,
            [⟨parentKey, true⟩])

/-- C6: an arrival whose generalization and buffered (or arriving)
specialization disagree on topic, GUID, or timestamp completes nothing and
errors nothing: the handlers are total functions that yield no signal, buffer
the arriving sample in the decorator's internal maps, and leave every combined
sample untouched.  Part one covers a generalization arriving when no buffered
specialization matches its `(topic, id, timestamp)` binding; part two covers a
specialization arriving when the waiting generalization (if any) disagrees. -/
theorem genSpecReader_mismatch_buffers (st : GSState) (key : Nat) (gen : RGen)
    (childName : String) (spec : RSpec) (cbk : List (Nat × GSCombined))
    (hgen : ∀ s, alookup gen.specializationID
        ((alookup gen.specializationTopic st.spec_by_topic_id).getD []) = some s →
      ¬ (s.specializationID = gen.specializationID
          ∧ (gen.specializationTimestamp = none
              ∨ s.specializationTimestamp = gen.specializationTimestamp)))
    (hspec : ∀ g, alookup spec.specializationID st.gen_by_spec_id = some g →
      g.specializationTopic ≠ childName
        ∨ ¬ g.specializationID = spec.specializationID
        ∨ (g.specializationTimestamp ≠ none
            ∧ g.specializationTimestamp ≠ spec.specializationTimestamp)) :
    ((on_reader_data st key gen cbk).2.2 = []
      ∧ alookup gen.specializationID (on_reader_data st key gen cbk).1.gen_by_spec_id
          = some gen
      ∧ alookup gen.specializationID (on_reader_data st key gen cbk).1.parent_key_by_spec_id
          = some key
      ∧ (on_reader_data st key gen cbk).2.1 = cbk)
    ∧ ((on_child_assembled st childName spec cbk).2.2 = []
      ∧ alookup spec.specializationID
          ((alookup childName
            (on_child_assembled st childName spec cbk).1.spec_by_topic_id).getD [])
          = some spec
      ∧ (on_child_assembled st childName spec cbk).2.1 = cbk) := by
  constructor
  · rw [on_reader_data]
    split
    · exact ⟨rfl, alookup_aset_self _ _ _, alookup_aset_self _ _ _, rfl⟩
    · rename_i s hl
      rw [if_neg (hgen s hl)]
      exact ⟨rfl, alookup_aset_self _ _ _, alookup_aset_self _ _ _, rfl⟩
  · rw [on_child_assembled]
    split
    · exact ⟨rfl, by simp [alookup_aset_self], rfl⟩
    · rename_i g hl
      rw [if_pos (hspec g hl)]
      exact ⟨rfl, by simp [alookup_aset_self], rfl⟩

/-- Concrete decorator state for the C6 witness: a specialization with
timestamp 5 buffered under topic `"T"` id 9, and a generalization waiting on
topic `"U"` id 9. -/
def demoGSState : GSState :=
  ⟨[], [(9, ⟨"U", 9, none⟩)], [("T", [(9, ⟨9, some 5⟩)])], []⟩

/-- Witness for C6: a generalization expecting timestamp 6 against the
buffered timestamp 5 (timestamp mismatch), and a specialization arriving on
topic `"T"` while the waiting generalization names topic `"U"` (topic
mismatch): no signal, both samples buffered, combined cache untouched. -/
theorem genSpecReader_mismatch_buffers_witness :
    (on_reader_data demoGSState 1 ⟨"T", 9, some 6⟩ []).2.2 = []
    ∧ alookup 9 (on_reader_data demoGSState 1 ⟨"T", 9, some 6⟩ []).1.gen_by_spec_id
        = some ⟨"T", 9, some 6⟩
    ∧ (on_child_assembled demoGSState "T" ⟨9, none⟩ []).2.2 = []
    ∧ alookup 9 ((alookup "T"
        (on_child_assembled demoGSState "T" ⟨9, none⟩ []).1.spec_by_topic_id).getD [])
        = some ⟨9, none⟩ := by
  have h := genSpecReader_mismatch_buffers demoGSState 1 ⟨"T", 9, some 6⟩ "T" ⟨9, none⟩ []
    (by
      intro s hs
      simp [demoGSState, alookup] at hs
      subst hs
      simp)
    (by
      intro g hg
      simp [demoGSState, alookup] at hg
      subst hg
      simp)
  exact ⟨h.1.1, h.1.2.1, h.2.1, h.2.2.1⟩

end Umaa.GS

namespace Umaa.H

open Umaa

/-!
## CombinedSample value semantics (`multi_topic_support.py` lines 125–189)

To make "returns a new instance" vs "modifies in place" observable, the
`collections` dict of each `CombinedSample` is held in an explicit store of
reference cells: a sample carries a `Ref` into the store, `CombinedSample`
construction allocates a fresh cell, and Python aliasing is reference equality.
Collection contents and overlay objects are opaque (element/overlay ids as
naturals).
-/

/-- Reference to a collections dict in the store. -/
abbrev Ref := Nat

/-- A collections dict: name to list of element ids. -/
abbrev Dict := List (String × List Nat)

/-- The heap of collections dicts plus the next fresh reference. -/
structure Store where
  dicts : List (Ref × Dict)
  nextRef : Ref
  deriving Repr, DecidableEq

/-- A `CombinedSample`: its `collections` dict lives in the store behind
`collectionsRef`; `overlay` / `overlaysByPath` are immutable fields. -/
structure CSample where
  collectionsRef : Ref
  overlay : Option Nat
  overlaysByPath : List (List String × Nat)
  deriving Repr, DecidableEq

/-- `CombinedSample(base=...)` construction: a fresh (empty) collections dict
is allocated. -/
def newSample (s : Store) : CSample × Store :=
  (⟨s.nextRef, none, []⟩, ⟨aset s.nextRef [] s.dicts, s.nextRef + 1⟩)

/-- `CombinedSample.with_overlay` (lines 163–169): a new instance that shares
the receiver's collections dict (the source passes `self.collections`). -/
def CSample.with_overlay (c : CSample) (o : Nat) : CSample :=
  { c with overlay := some o }

/-- `CombinedSample.add_overlay_at` (lines 181–189): a new instance with an
extended overlays map, sharing the receiver's collections dict. -/
def CSample.add_overlay_at (c : CSample) (p : List String) (o : Nat) : CSample :=
  { c with overlaysByPath := aset p o c.overlaysByPath }

/-- `CombinedSample.clone_with_collections` (lines 171–179): copy the dict
(`dict(self.collections)`), apply the updates, and return a new instance
holding the fresh dict. -/
def clone_with_collections (s : Store) (c : CSample) (updates : Dict) :
    CSample × Store :=
  let old := (alookup c.collectionsRef s.dicts).getD []
  let newDict := updates.foldl (fun d kv => aset kv.1 kv.2 d) old
  (⟨s.nextRef, c.overlay, c.overlaysByPath⟩,
    ⟨aset s.nextRef newDict s.dicts, s.nextRef + 1⟩)

/-- `LargeSetReader.on_reader_data` emission step
(`multi_topic_reader_decorators.py` line 189, likewise line 227 and
`LargeListReader` lines 332, 370): `combined.collections[set_name] = coll`
writes through the existing sample's dict reference and hands back the very
same instance. -/
def large_set_reader_emit (s : Store) (c : CSample) (name : String)
    (coll : List Nat) : CSample × Store :=
  let old := (alookup c.collectionsRef s.dicts).getD []
  (c, ⟨aset c.collectionsRef (aset name coll old) s.dicts, s.nextRef⟩)

/-- Store and sample for the C9 counterexample. -/
def demoStore : Store := ⟨[(0, [])], 1⟩

/-- The pre-existing `CombinedSample` instance the decorator mutates. -/
def demoCSample : CSample := ⟨0, none, []⟩

/-- C9 counterexample: the `LargeSetReader` emission step
(`combined.collections[set_name] = coll`, line 189) hands back the identical
instance while the collections content behind that instance's reference has
changed — an engine operation that modifies the collections map of an existing
`CombinedSample` in place, refuting "no engine operation modifies the base,
collections map, or overlays map of an existing CombinedSample instance in
place". -/
theorem combinedSample_inplace_mutation_counterexample :
    (large_set_reader_emit demoStore demoCSample "a" [7]).1 = demoCSample
    ∧ alookup demoCSample.collectionsRef
        (large_set_reader_emit demoStore demoCSample "a" [7]).2.dicts
      = some [("a", [7])]
    ∧ alookup demoCSample.collectionsRef demoStore.dicts = some []
    ∧ some [("a", [7])] ≠ (some [] : Option Dict) := by
  refine ⟨rfl, rfl, rfl, by decide⟩

/-- C9 (amended): `CombinedSample`'s own operations are value-like —
`with_overlay` and `add_overlay_at` return new instances sharing the
receiver's collections dict without touching the store, and
`clone_with_collections` returns a new instance holding a freshly allocated
dict, leaving every existing reference's content unchanged — but the reader
decorators' emission step returns the same instance and mutates the store at
exactly that instance's collections reference. -/
theorem combinedSample_value_semantics (s : Store) (c : CSample) (o : Nat)
    (p : List String) (u : Dict) (name : String) (coll : List Nat)
    (r r' : Ref) (hr : r ≠ s.nextRef) (hr' : r' ≠ c.collectionsRef) :
    (c.with_overlay o).collectionsRef = c.collectionsRef
    ∧ (c.with_overlay o).overlay = some o
    ∧ (c.add_overlay_at p o).collectionsRef = c.collectionsRef
    ∧ (c.add_overlay_at p o).overlaysByPath = aset p o c.overlaysByPath
    ∧ (clone_with_collections s c u).1.collectionsRef = s.nextRef
    ∧ alookup r (clone_with_collections s c u).2.dicts = alookup r s.dicts
    ∧ (large_set_reader_emit s c name coll).1 = c
    ∧ alookup r' (large_set_reader_emit s c name coll).2.dicts = alookup r' s.dicts
    ∧ alookup c.collectionsRef (large_set_reader_emit s c name coll).2.dicts
        = some (aset name coll ((alookup c.collectionsRef s.dicts).getD [])) :=
  ⟨rfl, rfl, rfl, rfl, rfl,
    alookup_aset_ne _ _ _ _ hr,
    rfl,
    alookup_aset_ne _ _ _ _ hr',
    alookup_aset_self _ _ _⟩

/-- Witness for the amended C9 at a concrete store with two references. -/
theorem combinedSample_value_semantics_witness :
    ((⟨0, none, []⟩ : CSample).with_overlay 3).collectionsRef = 0
    ∧ (clone_with_collections ⟨[(0, []), (1, [])], 2⟩ ⟨0, none, []⟩ [("a", [5])]).1.collectionsRef = 2
    ∧ alookup 1 (clone_with_collections ⟨[(0, []), (1, [])], 2⟩ ⟨0, none, []⟩
        [("a", [5])]).2.dicts = alookup 1 ([(0, []), (1, [])] : List (Ref × Dict))
    ∧ alookup 1 (large_set_reader_emit ⟨[(0, []), (1, [])], 2⟩ ⟨0, none, []⟩ "a"
        [5]).2.dicts = alookup 1 ([(0, []), (1, [])] : List (Ref × Dict)) := by
  have h := combinedSample_value_semantics ⟨[(0, []), (1, [])], 2⟩ ⟨0, none, []⟩ 3
    [] [("a", [5])] "a" [5] 1 1 (by decide) (by decide)
  exact ⟨h.1, h.2.2.2.2.1, h.2.2.2.2.2.1, h.2.2.2.2.2.2.2.1⟩

end Umaa.H

namespace Umaa.Node

open Umaa Umaa.GS

/-!
## ReaderNode drain and emission (`multi_topic_reader.py` lines 81–284)

`poll_once`'s handling of one valid sample (lines 257–283) is embedded for a
node whose decorators are `LargeSetReader` instances (the decorator kind is
representative: signal plumbing is identical for every `ReaderDecorator`).
The node state is `_combined_by_key` / `_info_by_key` plus the registered
decorators in order; `parent_notify` invocations are collected as a list of
notifications.  `register_decorator`'s `required` flag (line 129) is accepted
and ignored by the source, so every decorator here is a required one.
-/

/-- `<set_name>SetMetadata` fields read by `LargeSetReader._meta_ids`. -/
structure SetMetaR where
  setID : GUID
  updateElementID : Option GUID
  updateElementTimestamp : Option Nat
  deriving Repr, DecidableEq

/-- Large Set element sample (reader side). -/
structure SetElemR where
  setID : GUID
  elementID : GUID
  elementTimestamp : Option Nat
  deriving Repr, DecidableEq

/-- A base sample: attribute name to metadata object (`getattr` is `alookup`;
a missing attribute is an `AttributeError`, which `poll_once` swallows). -/
abbrev RSample := List (String × SetMetaR)

/-- The `CombinedSample` fields this node graph touches. -/
structure CombinedR where
  base : RSample
  collections : List (String × List SetElemR)
  deriving Repr, DecidableEq

/-- `LargeSetReader.__init__` buffers (`multi_topic_reader_decorators.py`
lines 133–145). -/
structure LSRState where
  set_name : String
  elems_by_set : List (GUID × List (GUID × SetElemR))
  meta_by_set : List (GUID × RSample)
  parent_key_by_set : List (GUID × Nat)
  deriving Repr, DecidableEq

/-- `LargeSetReader.on_reader_data` (lines 164–191): resolve
`<set_name>SetMetadata` (`none` = `AttributeError` raised before any state
change), record the latest parent sample and key, then complete only when
`updateElementID` matches a buffered element (with the optional timestamp
gate), publishing the buffered elements into the combined sample and the
node's cache. -/
def lsr_on_reader_data (d : LSRState) (key : Nat) (combined : CombinedR)
    (sample : RSample) (cbk : List (Nat × CombinedR)) :
    Option (LSRState × List (Nat × CombinedR) × List AssemblySignal) :=
  match alookup (d.set_name ++ "SetMetadata") sample with
  | none => none
  | some m =>
    let d1 := { d with
      meta_by_set := aset m.setID sample d.meta_by_set
      parent_key_by_set := aset m.setID key d.parent_key_by_set }
    match m.updateElementID with
    | none => some (d1, cbk, [])
    | some upd =>
      let bucket := (alookup m.setID d.elems_by_set).getD []
      match alookup upd bucket with
      | none => some (d1, cbk, [])
      | some elem =>
        let coll := bucket.map Prod.snd
        let combined1 := { combined with
          collections := aset d.set_name coll combined.collections }
        let emitted : LSRState × List (Nat × CombinedR) × List AssemblySignal :=
          (d1, aset key combined1 cbk, [⟨key, true⟩])
        match m.updateElementTimestamp with
        | some ts =>
          if elem.elementTimestamp ≠ some ts then some (d1, cbk, []) else some emitted
        | none => some emitted

/-- `parent_notify(sig.key, combined_by_key.get(sig.key, combined),
info_by_key.get(sig.key))` — one record per invocation. -/
structure Notification where
  key : Nat
  combined : CombinedR
  info : Option Nat
  deriving Repr, DecidableEq

/-- The decorator loop of `poll_once` (lines 274–283): run each decorator in
registration order on the current cache; for each yielded signal with
`complete = true`, invoke `parent_notify` immediately.  A decorator raising
(`none`) is logged and skipped.  Returns the final decorator states, the final
cache, the notifications, and every yielded signal. -/
def run_decorators (key : Nat) (sample : RSample) (combined : CombinedR)
    (infoByKey : List (Nat × Nat)) :
    List LSRState → List (Nat × CombinedR) →
    List LSRState × List (Nat × CombinedR) × List Notification × List AssemblySignal
  | [], cbk => ([], cbk, [], [])
  | d :: ds, cbk =>
    match lsr_on_reader_data d key combined sample cbk with
    | none =>
      let r := run_decorators key sample combined infoByKey ds cbk
      (d :: r.1, r.2.1, r.2.2.1, r.2.2.2)
    | some (d1, cbk1, sigs) =>
      let notes := sigs.filterMap (fun sg =>
        if sg.complete then
          some (⟨sg.key, (alookup sg.key cbk1).getD combined,
            alookup sg.key infoByKey⟩ : Notification)
        else none)
      let r := run_decorators key sample combined infoByKey ds cbk1
      (d1 :: r.1, r.2.1, notes ++ r.2.2.1, sigs ++ r.2.2.2)

/-- Node state: ordered decorators, `_combined_by_key`, `_info_by_key`. -/
structure NodeState where
  decorators : List LSRState
  combined_by_key : List (Nat × CombinedR)
  info_by_key : List (Nat × Nat)
  deriving Repr, DecidableEq

/-- `poll_once` for one valid sample (lines 257–283): compute the key, record
the sample info, look up or create the `CombinedSample`, then run the
decorator loop. -/
def poll_valid_sample (ns : NodeState) (key : Nat) (sample : RSample) (info : Nat) :
    NodeState × List Notification × List AssemblySignal :=
  let infoByKey := aset key info ns.info_by_key
  let cc : CombinedR × List (Nat × CombinedR) :=
    match alookup key ns.combined_by_key with
    | some c => (c, ns.combined_by_key)
    | none =>
      let c : CombinedR := ⟨sample, []⟩
      (c, aset key c ns.combined_by_key)
  let r := run_decorators key sample cc.1 infoByKey ns.decorators cc.2
  (⟨r.1, r.2.1, infoByKey⟩, r.2.2.1, r.2.2.2)

end Umaa.Node

namespace Umaa.Node

open Umaa Umaa.GS

/-- Decorator for set `"a"` with a buffered element matching the incoming
update marker. -/
def demoPollDecoA : LSRState := ⟨"a", [(1, [(5, ⟨1, 5, none⟩)])], [], []⟩

/-- Decorator for set `"b"` with nothing buffered: it yields no completion for
the incoming sample. -/
def demoPollDecoB : LSRState := ⟨"b", [], [], []⟩

/-- Node with both decorators registered (both required — the source ignores
the `required` flag) and empty per-key state. -/
def demoPollNode : NodeState := ⟨[demoPollDecoA, demoPollDecoB], [], []⟩

/-- A base sample whose `"a"` metadata completes against the buffered element
while its `"b"` metadata points at an element that never arrived. -/
def demoPollSample : RSample :=
  [("aSetMetadata", ⟨1, some 5, none⟩), ("bSetMetadata", ⟨2, some 9, none⟩)]

/-- C1 counterexample: processing one valid sample on a node with two required
decorators invokes `parent_notify` for the key even though the second required
decorator never reported complete for it (the full signal list holds exactly
one completion, from the first decorator alone), and after that emission the
per-key assembly state is NOT cleared: both the combined sample and the sample
info are still cached for the key. -/
theorem readerNode_emission_counterexample :
    ((poll_valid_sample demoPollNode 42 demoPollSample 0).2.1.map
        (fun n => n.key)) = [42]
    ∧ (poll_valid_sample demoPollNode 42 demoPollSample 0).2.2
        = [⟨42, true⟩]
    ∧ (alookup 42
        (poll_valid_sample demoPollNode 42 demoPollSample 0).1.combined_by_key).isSome
    ∧ (alookup 42
        (poll_valid_sample demoPollNode 42 demoPollSample 0).1.info_by_key)
        = some 0 := by
  refine ⟨by decide, by decide, by decide, by decide⟩

theorem lsr_on_reader_data_cbk (d : LSRState) (key : Nat) (combined : CombinedR)
    (sample : RSample) (cbk : List (Nat × CombinedR)) :
    ∀ r ∈ lsr_on_reader_data d key combined sample cbk,
      r.2.1 = cbk ∨ ∃ c, r.2.1 = aset key c cbk := by
  intro r hr
  rw [Option.mem_def, lsr_on_reader_data] at hr
  repeat' first
    | split at hr
    | simp only [] at hr
  any_goals exact Option.noConfusion hr
  all_goals injection hr with hr
  all_goals subst hr
  all_goals first
    | exact Or.inl rfl
    | exact Or.inr ⟨_, rfl⟩

theorem lsr_on_reader_data_preserves (d : LSRState) (key : Nat) (combined : CombinedR)
    (sample : RSample) (cbk : List (Nat × CombinedR)) (d1 : LSRState)
    (cbk1 : List (Nat × CombinedR)) (sigs : List AssemblySignal)
    (h : lsr_on_reader_data d key combined sample cbk = some (d1, cbk1, sigs))
    (k : Nat) (hk : (alookup k cbk).isSome) : (alookup k cbk1).isSome := by
  have hmem : (d1, cbk1, sigs) ∈ lsr_on_reader_data d key combined sample cbk := by
    rw [h]; rfl
  rcases lsr_on_reader_data_cbk d key combined sample cbk _ hmem with hc | ⟨c, hc⟩
  · simp only at hc
    rw [hc]
    exact hk
  · simp only at hc
    rw [hc]
    exact alookup_aset_isSome _ _ _ _ hk

theorem notification_keys (sigs : List AssemblySignal)
    (f : AssemblySignal → CombinedR) (g : AssemblySignal → Option Nat) :
    ((sigs.filterMap (fun sg =>
        if sg.complete then some (⟨sg.key, f sg, g sg⟩ : Notification) else none)).map
      (fun n => n.key))
      = ((sigs.filter (fun sg => sg.complete)).map (fun sg => sg.key)) := by
  induction sigs with
  | nil => rfl
  | cons sg rest ih =>
    by_cases hc : sg.complete = true
    · simp [List.filterMap_cons, List.filter_cons, hc, ih]
    · simp [List.filterMap_cons, List.filter_cons, hc, ih]

theorem run_decorators_spec (key : Nat) (sample : RSample) (combined : CombinedR)
    (infoByKey : List (Nat × Nat)) (ds : List LSRState) (cbk : List (Nat × CombinedR)) :
    ((run_decorators key sample combined infoByKey ds cbk).2.2.1.map (fun n => n.key))
      = (((run_decorators key sample combined infoByKey ds cbk).2.2.2.filter
          (fun sg => sg.complete)).map (fun sg => sg.key))
    ∧ (∀ k, (alookup k cbk).isSome →
        (alookup k (run_decorators key sample combined infoByKey ds cbk).2.1).isSome) := by
  induction ds generalizing cbk with
  | nil => exact ⟨rfl, fun k hk => hk⟩
  | cons d ds ih =>
    rw [run_decorators]
    match hd : lsr_on_reader_data d key combined sample cbk with
    | none =>
      exact ⟨(ih cbk).1, fun k hk => (ih cbk).2 k hk⟩
    | some (d1, cbk1, sigs) =>
      refine ⟨?_, ?_⟩
      · simp only [List.map_append, List.filter_append]
        rw [notification_keys, (ih cbk1).1]
      · intro k hk
        exact (ih cbk1).2 k
          (lsr_on_reader_data_preserves d key combined sample cbk d1 cbk1 sigs hd k hk)

/-- C1 (amended): on a valid sample the node invokes `parent_notify` once per
decorator-yielded signal with `complete = true`, immediately as each decorator
signals — a single decorator's completion suffices, with no gate on the other
(required) decorators — and the per-key assembly state is retained, never
cleared: after processing, the key is still bound in `_combined_by_key` (as is
every previously bound key) and `_info_by_key` still holds the sample info. -/
theorem readerNode_poll_emission_behavior (ns : NodeState) (key : Nat)
    (sample : RSample) (info : Nat) :
    ((poll_valid_sample ns key sample info).2.1.map (fun n => n.key))
      = (((poll_valid_sample ns key sample info).2.2.filter
          (fun sg => sg.complete)).map (fun sg => sg.key))
    ∧ (alookup key (poll_valid_sample ns key sample info).1.combined_by_key).isSome
    ∧ alookup key (poll_valid_sample ns key sample info).1.info_by_key = some info
    ∧ (∀ k, (alookup k ns.combined_by_key).isSome →
        (alookup k (poll_valid_sample ns key sample info).1.combined_by_key).isSome) := by
  rw [poll_valid_sample]
  match hcc : alookup key ns.combined_by_key with
  | some c =>
    have hspec := run_decorators_spec key sample c (aset key info ns.info_by_key)
      ns.decorators ns.combined_by_key
    refine ⟨hspec.1, ?_, ?_, ?_⟩
    · exact hspec.2 key (by rw [hcc]; rfl)
    · exact alookup_aset_self _ _ _
    · intro k hk
      exact hspec.2 k hk
  | none =>
    have hspec := run_decorators_spec key sample ⟨sample, []⟩
      (aset key info ns.info_by_key) ns.decorators
      (aset key (⟨sample, []⟩ : CombinedR) ns.combined_by_key)
    refine ⟨hspec.1, ?_, ?_, ?_⟩
    · exact hspec.2 key (by rw [alookup_aset_self]; rfl)
    · exact alookup_aset_self _ _ _
    · intro k hk
      exact hspec.2 k (alookup_aset_isSome _ _ _ _ hk)

/-- Node for the amended C1 witness: the two decorators plus one pre-existing
per-key entry, to exercise state retention for previously bound keys. -/
def demoPollNode2 : NodeState :=
  ⟨[demoPollDecoA, demoPollDecoB], [(6, ⟨[], []⟩)], []⟩

/-- Witness for the amended C1 at the concrete two-decorator node. -/
theorem readerNode_poll_emission_behavior_witness :
    ((poll_valid_sample demoPollNode2 7 demoPollSample 3).2.1.map (fun n => n.key))
      = (((poll_valid_sample demoPollNode2 7 demoPollSample 3).2.2.filter
          (fun sg => sg.complete)).map (fun sg => sg.key))
    ∧ (alookup 7 (poll_valid_sample demoPollNode2 7 demoPollSample 3).1.combined_by_key).isSome
    ∧ alookup 7 (poll_valid_sample demoPollNode2 7 demoPollSample 3).1.info_by_key = some 3
    ∧ (alookup 6 (poll_valid_sample demoPollNode2 7 demoPollSample 3).1.combined_by_key).isSome := by
  have h := readerNode_poll_emission_behavior demoPollNode2 7 demoPollSample 3
  exact ⟨h.1, h.2.1, h.2.2.1, h.2.2.2 6 (by decide)⟩

end Umaa.Node
